import Mathlib

/-!
# pivnet-resource: the `in` command and `client.GetProductFiles`

A shallow embedding of `cmd/in/main.go` and of `GetProductFiles` from
`pivnet/product_files.go`.

Go values `(v, err)` are pairs `α × Option String`: the error is `none` for
`nil` and `some text` for an error whose `Error()` is `text`.  Calls into
packages whose bodies are outside the two source files (the JSON decoder, the
temp file, `pivnet.NewClient`, `GetRelease`, `makeRequest`, the `filter`
package, `downloader.Download`, `filepath.Join`, `ioutil.WriteFile`, the JSON
encoder) are fields of an environment `Env`; every such call is recorded,
with its arguments and its result, as an `Event` of the run's trace.
-/

namespace concourse

/-- Type `concourse.Source`: the fields `main` reads (`ProductSlug`, `APIToken`).
Modelled from the spec: the declaration of `concourse.Source` is outside the
source files; the spec lists an "API base URL override" among the fields of
`source`, kept here as `URL` (absent = `none`). -/
structure Source where
  ProductSlug : String
  APIToken : String
  URL : Option String
  deriving DecidableEq, Repr

/-- Type `concourse.Version`. -/
structure Version where
  ProductVersion : String
  deriving DecidableEq, Repr

/-- Type `concourse.InParams`: `Globs` is a Go slice; `nil` and the empty
slice both have length zero and are the empty list here. -/
structure InParams where
  Globs : List String
  deriving DecidableEq, Repr

/-- Type `concourse.InRequest`, the decoded process input. -/
structure InRequest where
  Source : concourse.Source
  Version : concourse.Version
  Params : concourse.InParams
  deriving DecidableEq, Repr

/-- Type `concourse.Metadata`, one name/value pair. -/
structure Metadata where
  Name : String
  Value : String
  deriving DecidableEq, Repr

/-- Type `concourse.InResponse`, the value encoded to standard output. -/
structure InResponse where
  Version : concourse.Version
  Metadata : List concourse.Metadata
  deriving DecidableEq, Repr

end concourse

namespace pivnet

/-- Type `pivnet.Eula` (the field `main` reads). -/
structure Eula where
  Slug : String
  deriving DecidableEq, Repr

/-- Type `pivnet.Links`: `ProductFiles` is a Go `map[string]string`, kept as
an association list read by `mapIndex`. -/
structure Links where
  ProductFiles : List (String × String)
  deriving DecidableEq, Repr

/-- Type `pivnet.Release` (the fields the two source files read). -/
structure Release where
  ReleaseType : String
  ReleaseDate : String
  Description : String
  Eula : pivnet.Eula
  Links : pivnet.Links
  deriving DecidableEq, Repr

/-- Type `pivnet.ProductFile` (the fields `product_files.go` names). -/
structure ProductFile where
  ID : Int
  AWSObjectKey : String
  FileType : String
  FileVersion : String
  MD5 : String
  Name : String
  deriving DecidableEq, Repr

/-- Type `pivnet.ProductFiles`: the decoded collection; `ProductFiles{}` is
the value with no files. -/
structure ProductFiles where
  Files : List pivnet.ProductFile
  deriving DecidableEq, Repr

/-- The Go composite literal `ProductFiles{}`. -/
def ProductFiles.zero : pivnet.ProductFiles := ⟨[]⟩

/-- Type `pivnet.NewClientConfig`. -/
structure NewClientConfig where
  URL : String
  Token : String
  UserAgent : String
  deriving DecidableEq, Repr

/-- The value `pivnet.NewClient` returns; `url` is the field
`product_files.go` reads as `c.url`. -/
structure client where
  url : String
  token : String
  userAgent : String
  deriving DecidableEq, Repr

/-- Go map indexing `m[k]` on a `map[string]string`: the stored value, or the
zero value `""` when the key is absent. -/
def mapIndex (m : List (String × String)) (k : String) : String :=
  match m.find? (fun p => p.1 = k) with
  | some p => p.2
  | none => ""

/-- One call of `c.makeRequest(method, url, expectedStatus, body, data)`. -/
structure Request where
  method : String
  url : String
  expectedStatusCode : Nat
  body : Option String
  deriving DecidableEq, Repr

/-- Constant `http.StatusOK`. -/
def StatusOK : Nat := 200

/-- Method `client.GetProductFiles` of `product_files.go`.  `makeRequest` is
the client's request method (its body is outside the source files): given
the request and the current value behind the `data` pointer it returns the
value left behind the pointer and the error.  The result is the list of
requests issued and the Go return pair. -/
def GetProductFiles
    (makeRequest : pivnet.Request → pivnet.ProductFiles → pivnet.ProductFiles × Option String)
    (release : pivnet.Release) :
    List pivnet.Request × (pivnet.ProductFiles × Option String) :=
  let productFiles := pivnet.ProductFiles.zero
  let req : pivnet.Request :=
    ⟨"GET", pivnet.mapIndex release.Links.ProductFiles "href", pivnet.StatusOK, none⟩
  let r := makeRequest req productFiles
  let productFiles := r.1
  let err := r.2
  if err ≠ none then
    ([req], (pivnet.ProductFiles.zero, err))
  else
    ([req], (productFiles, none))

end pivnet

namespace filter

/-- Modelled from the spec: the `filter` package is outside the source files;
a download link is "file name and source URL". -/
structure DownloadLink where
  Name : String
  URL : String
  deriving DecidableEq, Repr

end filter

namespace cmd

/-- An observable step of a run of `main`: a call that leaves the process,
with its arguments and what it returned (`err` is the returned error). -/
inductive Event where
  /-- A run-time panic (index out of range on `os.Args[0]`). -/
  | runtimePanic
  /-- Functions `log.Fatalf` / `log.Fatalln`: the formatted message goes to
  the standard logger and the process exits with status 1. -/
  | fatal (msg : String)
  /-- Call `json.NewDecoder(os.Stdin).Decode(&input)`. -/
  | decodeStdin (input : concourse.InRequest) (err : Option String)
  /-- Call `ioutil.TempFile(dir, pattern)`; `name` is the created file's name. -/
  | tempFile (dir pattern : String) (name : String) (err : Option String)
  /-- Call `fmt.Fprintf(logFile, ...)`. -/
  | logFileWrite (text : String)
  /-- Call `fmt.Fprintf(os.Stderr, ...)`. -/
  | stderrWrite (text : String)
  /-- Call `l.Debugf("received input: %+v\n", input)`. -/
  | debugf (input : concourse.InRequest)
  /-- Call `pivnet.NewClient(clientConfig, l)`. -/
  | newClient (config : pivnet.NewClientConfig) (res : pivnet.client)
  /-- Call `client.GetRelease(slug, version)`. -/
  | getRelease (slug version : String) (release : pivnet.Release) (err : Option String)
  /-- Call `c.makeRequest(...)` issued by `client.GetProductFiles`. -/
  | request (req : pivnet.Request)
  /-- Return of `client.GetProductFiles(release)`. -/
  | getProductFiles (release : pivnet.Release) (productFiles : pivnet.ProductFiles)
      (err : Option String)
  /-- Call `filter.DownloadLinks(productFiles)`. -/
  | downloadLinks (productFiles : pivnet.ProductFiles) (res : List filter.DownloadLink)
  /-- Call `filter.DownloadLinksByGlob(downloadLinks, globs)`. -/
  | downloadLinksByGlob (links : List filter.DownloadLink) (globs : List String)
      (res : List filter.DownloadLink) (err : Option String)
  /-- Call `downloader.Download(downloadDir, downloadLinks, token)`. -/
  | download (dir : String) (links : List filter.DownloadLink) (token : String)
      (err : Option String)
  /-- Call `ioutil.WriteFile(path, data, perm)`. -/
  | writeFile (path data : String) (perm : Nat) (err : Option String)
  /-- Call `json.NewEncoder(os.Stdout).Encode(out)`: the only write to
  standard output. -/
  | encodeStdout (out : concourse.InResponse) (err : Option String)
  deriving DecidableEq, Repr

/-- How a computation ends: the process has exited with a status, or the
computation goes on with a value. -/
inductive Outcome (α : Type) where
  | exit (status : Nat)
  | cont (a : α)
  deriving DecidableEq, Repr

/-- A computation of the process: the events so far and how it ends. -/
structure Proc (α : Type) where
  trace : List Event
  out : Outcome α

/-- Sequencing: an exited process runs nothing further. -/
def Proc.bind {α β : Type} (p : Proc α) (f : α → Proc β) : Proc β :=
  match p.out with
  | .exit s => ⟨p.trace, .exit s⟩
  | .cont a => ⟨p.trace ++ (f a).trace, (f a).out⟩

instance : Monad Proc where
  pure a := ⟨[], .cont a⟩
  bind := Proc.bind

/-- Record one event and go on with `a`. -/
def call {α : Type} (e : Event) (a : α) : Proc α := ⟨[e], .cont a⟩

/-- Function `log.Fatalf(format, ...)` with the formatted message `msg`:
write it through the standard logger, then `os.Exit(1)`. -/
def fatalf {α : Type} (msg : String) : Proc α := ⟨[.fatal msg], .exit 1⟩

/-- Function `log.Fatalln(v)`: as `fatalf`, with a newline appended. -/
def fatalln {α : Type} (msg : String) : Proc α := fatalf (msg ++ "\n")

/-- The exit status of a finished process: the status it exited with, or 0
when `main` returned. -/
def Proc.status (p : Proc Unit) : Nat :=
  match p.out with
  | .exit s => s
  | .cont _ => 0

/-- Everything outside the two source files that a run of `main` depends on. -/
structure Env where
  /-- The package variable `version`, set at compile time or left `""`. -/
  version : String
  /-- The process arguments `os.Args`. -/
  Args : List String
  /-- Result of decoding standard input into `concourse.InRequest`. -/
  Decode : concourse.InRequest × Option String
  /-- Function `ioutil.TempFile`: the created file's name and the error. -/
  TempFile : String → String → String × Option String
  /-- The constant `pivnet.URL`. -/
  pivnetURL : String
  /-- Function `pivnet.NewClient`. -/
  NewClient : pivnet.NewClientConfig → pivnet.client
  /-- Method `client.GetRelease`. -/
  GetRelease : pivnet.client → String → String → pivnet.Release × Option String
  /-- Method `client.makeRequest`, decoding into a `*ProductFiles`. -/
  makeRequest : pivnet.client → pivnet.Request → pivnet.ProductFiles →
    pivnet.ProductFiles × Option String
  /-- Function `filter.DownloadLinks`. -/
  DownloadLinks : pivnet.ProductFiles → List filter.DownloadLink
  /-- Function `filter.DownloadLinksByGlob`. -/
  DownloadLinksByGlob : List filter.DownloadLink → List String →
    List filter.DownloadLink × Option String
  /-- Function `downloader.Download`. -/
  Download : String → List filter.DownloadLink → String → Option String
  /-- Function `filepath.Join` on two elements. -/
  Join : String → String → String
  /-- Function `ioutil.WriteFile`. -/
  WriteFile : String → String → Nat → Option String
  /-- Method `Encode` of the JSON encoder on standard output. -/
  Encode : concourse.InResponse → Option String

/-- Constant `url` of `main.go` (declared there, not read by `main`, which
uses `pivnet.URL`). -/
def url : String := "https://network.pivotal.io/api/v2"

/-- Constant `os.ModePerm`, octal 0777. -/
def ModePerm : Nat := 511

/-- Function `mustBeNonEmpty(input, key)`: `some msg` when it ends the
process through `log.Fatalf` with message `msg`, `none` when it returns. -/
def mustBeNonEmpty (input : String) (key : String) : Option String :=
  if input = "" then some (key ++ " must be provided\n") else none

/-- Function `main` of `cmd/in/main.go`.  The constructors
`concourse.SanitizedSource`, `sanitizer.NewSanitizer` and `logger.NewLogger`
only build the logger `l` and leave no event. -/
def main (env : Env) : Proc Unit := do
  let version := if env.version = "" then "dev" else env.version
  if env.Args.length < 2 then
    match env.Args with
    | [] => (⟨[.runtimePanic], .exit 2⟩ : Proc Unit)
    | a :: _ => fatalln ("not enough args - usage: " ++ a ++ " <sources directory>")
  let downloadDir := env.Args.getD 1 ""
  let (input, err) ← call (.decodeStdin env.Decode.1 env.Decode.2) env.Decode
  if let some e := err then
    fatalln e
  let (logFile, err) ← call
    (.tempFile "" "pivnet-resource-in.log" (env.TempFile "" "pivnet-resource-in.log").1
      (env.TempFile "" "pivnet-resource-in.log").2)
    (env.TempFile "" "pivnet-resource-in.log")
  if let some e := err then
    fatalln e
  call (.logFileWrite ("PivNet Resource version: " ++ version ++ "\n")) ()
  call (.stderrWrite ("logging to " ++ logFile ++ "\n")) ()
  let token := input.Source.APIToken
  if let some msg := mustBeNonEmpty token "api_token" then
    fatalf msg
  call (.debugf input) ()
  let clientConfig : pivnet.NewClientConfig :=
    { URL := env.pivnetURL
      Token := input.Source.APIToken
      UserAgent := "pivnet-resource/" ++ version }
  let client ← call (.newClient clientConfig (env.NewClient clientConfig))
    (env.NewClient clientConfig)
  let productVersion := input.Version.ProductVersion
  let (release, err) ← call
    (.getRelease input.Source.ProductSlug productVersion
      (env.GetRelease client input.Source.ProductSlug productVersion).1
      (env.GetRelease client input.Source.ProductSlug productVersion).2)
    (env.GetRelease client input.Source.ProductSlug productVersion)
  if let some e := err then
    fatalf ("Failed to get Release: " ++ e ++ "\n")
  let gpf := pivnet.GetProductFiles (env.makeRequest client) release
  let _ ← (⟨gpf.1.map Event.request, .cont ()⟩ : Proc Unit)
  let (productFiles, err) ← call (.getProductFiles release gpf.2.1 gpf.2.2) gpf.2
  if let some e := err then
    fatalf ("Failed to get Product Files: " ++ e ++ "\n")
  let mut downloadLinks ← call
    (.downloadLinks productFiles (env.DownloadLinks productFiles))
    (env.DownloadLinks productFiles)
  if input.Params.Globs.length > 0 then
    let r ← call
      (.downloadLinksByGlob downloadLinks input.Params.Globs
        (env.DownloadLinksByGlob downloadLinks input.Params.Globs).1
        (env.DownloadLinksByGlob downloadLinks input.Params.Globs).2)
      (env.DownloadLinksByGlob downloadLinks input.Params.Globs)
    downloadLinks := r.1
    if let some e := r.2 then
      fatalf ("Failed to filter Product Files: " ++ e ++ "\n")
  let err ← call
    (.download downloadDir downloadLinks token (env.Download downloadDir downloadLinks token))
    (env.Download downloadDir downloadLinks token)
  if let some e := err then
    fatalf ("Failed to Download Files: " ++ e ++ "\n")
  let versionFilepath := env.Join downloadDir "version"
  let err ← call
    (.writeFile versionFilepath productVersion ModePerm
      (env.WriteFile versionFilepath productVersion ModePerm))
    (env.WriteFile versionFilepath productVersion ModePerm)
  if let some e := err then
    fatalln e
  let out : concourse.InResponse :=
    { Version := { ProductVersion := productVersion }
      Metadata :=
        [ { Name := "release_type", Value := release.ReleaseType },
          { Name := "release_date", Value := release.ReleaseDate },
          { Name := "description", Value := release.Description },
          { Name := "eula_slug", Value := release.Eula.Slug } ] }
  let err ← call (.encodeStdout out (env.Encode out)) (env.Encode out)
  if let some e := err then
    fatalln e

end cmd

/-! ## The values a run computes, named

Each definition below names one intermediate value of `main`, so that the
trace of a run can be written down stage by stage (`stages`, `main_eq`). -/

namespace cmd
namespace Env

/-- The build version after `if version == "" { version = "dev" }`. -/
def buildVersion (env : Env) : String := if env.version = "" then "dev" else env.version

/-- The decoded `input`. -/
def input (env : Env) : concourse.InRequest := env.Decode.1

/-- The local `downloadDir := os.Args[1]`. -/
def downloadDir (env : Env) : String := env.Args.getD 1 ""

/-- The result of `ioutil.TempFile("", "pivnet-resource-in.log")`. -/
def logFile (env : Env) : String × Option String := env.TempFile "" "pivnet-resource-in.log"

/-- The local `token`. -/
def token (env : Env) : String := env.input.Source.APIToken

/-- The local `clientConfig`. -/
def clientConfig (env : Env) : pivnet.NewClientConfig :=
  { URL := env.pivnetURL
    Token := env.input.Source.APIToken
    UserAgent := "pivnet-resource/" ++ env.buildVersion }

/-- The local `client`. -/
def client (env : Env) : pivnet.client := env.NewClient env.clientConfig

/-- The local `productVersion`. -/
def productVersion (env : Env) : String := env.input.Version.ProductVersion

/-- The result of `client.GetRelease(input.Source.ProductSlug, productVersion)`. -/
def release (env : Env) : pivnet.Release × Option String :=
  env.GetRelease env.client env.input.Source.ProductSlug env.productVersion

/-- The result of `client.GetProductFiles(release)`, with the requests issued. -/
def productFiles (env : Env) : List pivnet.Request × (pivnet.ProductFiles × Option String) :=
  pivnet.GetProductFiles (env.makeRequest env.client) env.release.1

/-- The result of `filter.DownloadLinks(productFiles)`. -/
def allLinks (env : Env) : List filter.DownloadLink := env.DownloadLinks env.productFiles.2.1

/-- The result of `filter.DownloadLinksByGlob(downloadLinks, input.Params.Globs)`. -/
def globbed (env : Env) : List filter.DownloadLink × Option String :=
  env.DownloadLinksByGlob env.allLinks env.input.Params.Globs

/-- The local `downloadLinks` when `downloader.Download` is called. -/
def downloadLinks (env : Env) : List filter.DownloadLink :=
  if env.input.Params.Globs.length > 0 then env.globbed.1 else env.allLinks

/-- The result of `downloader.Download(downloadDir, downloadLinks, token)`. -/
def downloaded (env : Env) : Option String :=
  env.Download env.downloadDir env.downloadLinks env.token

/-- The local `versionFilepath`. -/
def versionFilepath (env : Env) : String := env.Join env.downloadDir "version"

/-- The result of `ioutil.WriteFile(versionFilepath, []byte(productVersion), os.ModePerm)`. -/
def written (env : Env) : Option String :=
  env.WriteFile env.versionFilepath env.productVersion ModePerm

/-- The local `out`. -/
def response (env : Env) : concourse.InResponse :=
  { Version := { ProductVersion := env.productVersion }
    Metadata :=
      [ { Name := "release_type", Value := env.release.1.ReleaseType },
        { Name := "release_date", Value := env.release.1.ReleaseDate },
        { Name := "description", Value := env.release.1.Description },
        { Name := "eula_slug", Value := env.release.1.Eula.Slug } ] }

/-- The result of `json.NewEncoder(os.Stdout).Encode(out)`. -/
def encoded (env : Env) : Option String := env.Encode env.response

/-- Events up to the credential check. -/
def evStart (env : Env) : List Event :=
  [ .decodeStdin env.Decode.1 env.Decode.2,
    .tempFile "" "pivnet-resource-in.log" env.logFile.1 env.logFile.2,
    .logFileWrite ("PivNet Resource version: " ++ env.buildVersion ++ "\n"),
    .stderrWrite ("logging to " ++ env.logFile.1 ++ "\n") ]

/-- Events from the credential check to the return of `GetRelease`. -/
def evRelease (env : Env) : List Event :=
  [ .debugf env.input,
    .newClient env.clientConfig env.client,
    .getRelease env.input.Source.ProductSlug env.productVersion env.release.1 env.release.2 ]

/-- Events of `GetProductFiles`. -/
def evFiles (env : Env) : List Event :=
  env.productFiles.1.map Event.request ++ 
    [.getProductFiles env.release.1 env.productFiles.2.1 env.productFiles.2.2]

/-- Events of the two `filter` calls. -/
def evFilter (env : Env) : List Event :=
  .downloadLinks env.productFiles.2.1 env.allLinks ::
    (if env.input.Params.Globs.length > 0 then
      [.downloadLinksByGlob env.allLinks env.input.Params.Globs env.globbed.1 env.globbed.2]
    else [])

/-- The event of `downloader.Download`. -/
def evDownload (env : Env) : Event :=
  .download env.downloadDir env.downloadLinks env.token env.downloaded

/-- The event of `ioutil.WriteFile`. -/
def evWrite (env : Env) : Event :=
  .writeFile env.versionFilepath env.productVersion ModePerm env.written

/-- The event of the encoder on standard output. -/
def evEncode (env : Env) : Event := .encodeStdout env.response env.encoded

end Env

/-- The run of `main`, stage by stage: the trace and exit status for each
place where the run can end (`main_eq` proves it equal to `main`). -/
def stages (env : Env) : Proc Unit :=
  if env.Args.length < 2 then
    match env.Args with
    | [] => ⟨[.runtimePanic], .exit 2⟩
    | a :: _ =>
      ⟨[.fatal ("not enough args - usage: " ++ a ++ " <sources directory>" ++ "\n")], .exit 1⟩
  else
    match env.Decode.2 with
    | some e => ⟨[.decodeStdin env.Decode.1 env.Decode.2, .fatal (e ++ "\n")], .exit 1⟩
    | none =>
    match env.logFile.2 with
    | some e =>
      ⟨[.decodeStdin env.Decode.1 env.Decode.2,
        .tempFile "" "pivnet-resource-in.log" env.logFile.1 env.logFile.2,
        .fatal (e ++ "\n")], .exit 1⟩
    | none =>
    match mustBeNonEmpty env.token "api_token" with
    | some msg => ⟨env.evStart ++ [.fatal msg], .exit 1⟩
    | none =>
    match env.release.2 with
    | some e =>
      ⟨env.evStart ++ env.evRelease ++ [.fatal ("Failed to get Release: " ++ e ++ "\n")], .exit 1⟩
    | none =>
    match env.productFiles.2.2 with
    | some e =>
      ⟨env.evStart ++ env.evRelease ++ env.evFiles ++
        [.fatal ("Failed to get Product Files: " ++ e ++ "\n")], .exit 1⟩
    | none =>
    match (if env.input.Params.Globs.length > 0 then env.globbed.2 else none) with
    | some e =>
      ⟨env.evStart ++ env.evRelease ++ env.evFiles ++ env.evFilter ++
        [.fatal ("Failed to filter Product Files: " ++ e ++ "\n")], .exit 1⟩
    | none =>
    match env.downloaded with
    | some e =>
      ⟨env.evStart ++ env.evRelease ++ env.evFiles ++ env.evFilter ++
        [env.evDownload, .fatal ("Failed to Download Files: " ++ e ++ "\n")], .exit 1⟩
    | none =>
    match env.written with
    | some e =>
      ⟨env.evStart ++ env.evRelease ++ env.evFiles ++ env.evFilter ++
        [env.evDownload, env.evWrite, .fatal (e ++ "\n")], .exit 1⟩
    | none =>
    match env.encoded with
    | some e =>
      ⟨env.evStart ++ env.evRelease ++ env.evFiles ++ env.evFilter ++
        [env.evDownload, env.evWrite, env.evEncode, .fatal (e ++ "\n")], .exit 1⟩
    | none =>
      ⟨env.evStart ++ env.evRelease ++ env.evFiles ++ env.evFilter ++
        [env.evDownload, env.evWrite, env.evEncode], .cont ()⟩

end cmd

/-! ## Reading a trace -/

namespace cmd

/-- The stage of the pipeline an event belongs to: 0 for process start-up and
for the fatal message, 1 client creation, 2 `GetRelease`, 3 `GetProductFiles`,
4 the `filter` calls, 5 `downloader.Download`, 6 the version marker file,
7 the structured output. -/
def Event.stage : Event → Nat
  | .newClient _ _ => 1
  | .getRelease _ _ _ _ => 2
  | .request _ => 3
  | .getProductFiles _ _ _ => 3
  | .downloadLinks _ _ => 4
  | .downloadLinksByGlob _ _ _ _ => 4
  | .download _ _ _ _ => 5
  | .writeFile _ _ _ _ => 6
  | .encodeStdout _ _ => 7
  | _ => 0

/-- Whether the event is a message of `log.Fatalf` / `log.Fatalln`. -/
def Event.isFatal : Event → Bool
  | .fatal _ => true
  | _ => false

/-- In trace `t`, every event satisfying `Q` comes after some event
satisfying `P`. -/
def After (P Q : Event → Prop) (t : List Event) : Prop :=
  ∀ pre e post, t = pre ++ e :: post → Q e → ∃ x ∈ pre, P x

/-- A sample environment: product `my-product` at version `1.2.3` with two
files, glob matching by exact file name, every call succeeding unless the
arguments say otherwise.  `relErr`, `reqErr` and `dlErr` are the errors of
`GetRelease`, `makeRequest` and `Download`. -/
def sampleEnv (globs : List String) (apiToken : String) (override : Option String)
    (relErr reqErr dlErr : Option String) : Env where
  version := ""
  Args := ["/opt/resource/in", "/tmp/build/get"]
  Decode := (⟨⟨"my-product", apiToken, override⟩, ⟨"1.2.3"⟩, ⟨globs⟩⟩, none)
  TempFile := fun _ pattern => ("/tmp/" ++ pattern ++ "042", none)
  pivnetURL := url
  NewClient := fun c => ⟨c.URL, c.Token, c.UserAgent⟩
  GetRelease := fun _ _ _ =>
    (⟨"Minor Release", "2015-12-01", "a release", ⟨"pivotal_eula"⟩,
      ⟨[("href", "https://network.pivotal.io/api/v2/products/my-product/releases/7/product_files")]⟩⟩,
      relErr)
  makeRequest := fun _ _ _ =>
    (⟨[⟨1, "k1", "Software", "1.2.3", "m1", "a.ova"⟩, ⟨2, "k2", "Software", "1.2.3", "m2", "b.zip"⟩]⟩,
      reqErr)
  DownloadLinks := fun pf => pf.Files.map (fun f => ⟨f.Name, "https://files/" ++ f.Name⟩)
  DownloadLinksByGlob := fun links gs =>
    if gs.all (fun g => links.any (fun l => l.Name = g)) then
      (links.filter (fun l => gs.any (fun g => l.Name = g)), none)
    else ([], some "no files match glob")
  Download := fun _ _ _ => dlErr
  Join := fun d f => d ++ "/" ++ f
  WriteFile := fun _ _ _ => none
  Encode := fun _ => none

end cmd

namespace cmd

/-- Boolean form of `After`, computed along the trace. -/
def afterB (p q : Event → Bool) : List Event → Bool
  | [] => true
  | a :: t => !q a && (p a || afterB p q t)

/-- A `GetRelease` that returned without error. -/
def Event.okGetRelease : Event → Bool
  | .getRelease _ _ _ none => true
  | _ => false

/-- A `GetProductFiles` that returned without error. -/
def Event.okGetProductFiles : Event → Bool
  | .getProductFiles _ _ none => true
  | _ => false

/-- A `DownloadLinksByGlob` that returned without error. -/
def Event.okDownloadLinksByGlob : Event → Bool
  | .downloadLinksByGlob _ _ _ none => true
  | _ => false

/-- A `Download` that returned without error. -/
def Event.okDownload : Event → Bool
  | .download _ _ _ none => true
  | _ => false

/-- A `WriteFile` that returned without error. -/
def Event.okWriteFile : Event → Bool
  | .writeFile _ _ _ none => true
  | _ => false

/-- Any call of `WriteFile`. -/
def Event.isWriteFile : Event → Bool
  | .writeFile _ _ _ _ => true
  | _ => false

/-- Any write to standard output. -/
def Event.isEncodeStdout : Event → Bool
  | .encodeStdout _ _ => true
  | _ => false

end cmd

/-! ## The run, stage by stage -/

namespace cmd

/-- Function `main` runs exactly the stages of `stages`. -/
theorem main_eq (env : Env) : main env = stages env := by
  obtain ⟨version, Args, ⟨input, derr⟩, TempFile, pivnetURL, NewClient, GetRelease, makeRequest,
    DownloadLinks, DownloadLinksByGlob, Download, Join, WriteFile, Encode⟩ := env
  unfold main stages
  simp only [bind, Proc.bind, call, fatalf, fatalln, pure, Env.evStart, Env.evRelease,
    Env.evFiles, Env.evFilter, Env.evDownload, Env.evWrite, Env.evEncode, Env.buildVersion,
    Env.input, Env.downloadDir, Env.logFile, Env.token, Env.clientConfig, Env.client,
    Env.productVersion, Env.release, Env.productFiles, Env.allLinks, Env.globbed,
    Env.downloadLinks, Env.downloaded, Env.versionFilepath, Env.written, Env.response,
    Env.encoded]
  by_cases hargs : Args.length < 2
  · simp only [hargs, if_true]
  simp only [hargs, if_false]
  cases derr with
  | some e => simp
  | none =>
  simp only []
  generalize (if version = "" then "dev" else version) = bv
  generalize TempFile "" "pivnet-resource-in.log" = lf
  obtain ⟨name, lerr⟩ := lf
  cases lerr with
  | some e => simp
  | none =>
  simp only []
  cases mustBeNonEmpty input.Source.APIToken "api_token" with
  | some e => simp
  | none =>
  simp only []
  generalize GetRelease _ _ _ = rel
  obtain ⟨release, rerr⟩ := rel
  cases rerr with
  | some e => simp
  | none =>
  simp only []
  generalize pivnet.GetProductFiles _ _ = gpf
  obtain ⟨reqs, pf, perr⟩ := gpf
  cases perr with
  | some e => simp
  | none =>
  simp only []
  by_cases hg : input.Params.Globs.length > 0
  · simp only [hg, if_true]
    generalize DownloadLinksByGlob _ _ = gl
    obtain ⟨links, gerr⟩ := gl
    cases gerr with
    | some e => simp
    | none =>
    simp only []
    generalize Download _ _ _ = dl
    cases dl with
    | some e => simp
    | none =>
    simp only []
    generalize WriteFile _ _ _ = wr
    cases wr with
    | some e => simp
    | none =>
    simp only []
    generalize Encode _ = en
    cases en with
    | some e => simp
    | none => simp
  · simp only [hg, if_false]
    generalize Download _ _ _ = dl
    cases dl with
    | some e => simp
    | none =>
    simp only []
    generalize WriteFile _ _ _ = wr
    cases wr with
    | some e => simp
    | none =>
    simp only []
    generalize Encode _ = en
    cases en with
    | some e => simp
    | none => simp

end cmd

namespace cmd

/-- Function `GetProductFiles` issues one `GET` request, whatever it returns. -/
theorem GetProductFiles_requests
    (mk : pivnet.Request → pivnet.ProductFiles → pivnet.ProductFiles × Option String)
    (rel : pivnet.Release) :
    (pivnet.GetProductFiles mk rel).1 =
      [⟨"GET", pivnet.mapIndex rel.Links.ProductFiles "href", 200, none⟩] := by
  unfold pivnet.GetProductFiles
  simp only [pivnet.StatusOK]
  split <;> rfl

/-- Nothing comes before anything in the empty trace. -/
theorem after_nil (P Q : Event → Prop) : After P Q [] := by
  intro pre e post h
  simp at h

/-- Peeling the first event off a trace. -/
theorem after_cons (P Q : Event → Prop) (a : Event) (t : List Event)
    (hq : ¬ Q a) (h : P a ∨ After P Q t) : After P Q (a :: t) := by
  intro pre e post heq hQ
  cases pre with
  | nil =>
    simp only [List.nil_append, List.cons.injEq] at heq
    exact absurd (heq.1 ▸ hQ) hq
  | cons b pre =>
    simp only [List.cons_append, List.cons.injEq] at heq
    obtain ⟨hab, ht⟩ := heq
    rcases h with hp | ha
    · exact ⟨b, List.mem_cons_self _ _, hab ▸ hp⟩
    · obtain ⟨x, hx, hpx⟩ := ha pre e post ht hQ
      exact ⟨x, List.mem_cons_of_mem _ hx, hpx⟩

end cmd

namespace cmd

/-- The requests recorded for `GetProductFiles` in a run. -/
theorem productFiles_requests (env : Env) :
    env.productFiles.1 =
      [⟨"GET", pivnet.mapIndex env.release.1.Links.ProductFiles "href", 200, none⟩] := by
  unfold Env.productFiles
  exact GetProductFiles_requests _ _

/-- The thirteen ways a run of `main` can end, each with the results that lead
there and the run it gives. -/
theorem main_cases (env : Env) :
    (env.Args = [] ∧ main env = ⟨[.runtimePanic], .exit 2⟩) ∨
    (∃ a, env.Args = [a] ∧ main env =
      ⟨[.fatal ("not enough args - usage: " ++ a ++ " <sources directory>" ++ "\n")], .exit 1⟩) ∨
    (∃ e, ¬ env.Args.length < 2 ∧ env.Decode.2 = some e ∧ main env =
      ⟨[.decodeStdin env.Decode.1 env.Decode.2, .fatal (e ++ "\n")], .exit 1⟩) ∨
    (∃ e, ¬ env.Args.length < 2 ∧ env.Decode.2 = none ∧ env.logFile.2 = some e ∧ main env =
      ⟨[.decodeStdin env.Decode.1 env.Decode.2,
        .tempFile "" "pivnet-resource-in.log" env.logFile.1 env.logFile.2,
        .fatal (e ++ "\n")], .exit 1⟩) ∨
    (∃ msg, ¬ env.Args.length < 2 ∧ env.Decode.2 = none ∧ env.logFile.2 = none ∧
      mustBeNonEmpty env.token "api_token" = some msg ∧ main env =
      ⟨env.evStart ++ [.fatal msg], .exit 1⟩) ∨
    (∃ e, ¬ env.Args.length < 2 ∧ env.Decode.2 = none ∧ env.logFile.2 = none ∧
      mustBeNonEmpty env.token "api_token" = none ∧ env.release.2 = some e ∧ main env =
      ⟨env.evStart ++ env.evRelease ++ [.fatal ("Failed to get Release: " ++ e ++ "\n")],
        .exit 1⟩) ∨
    (∃ e, ¬ env.Args.length < 2 ∧ env.Decode.2 = none ∧ env.logFile.2 = none ∧
      mustBeNonEmpty env.token "api_token" = none ∧ env.release.2 = none ∧
      env.productFiles.2.2 = some e ∧ main env =
      ⟨env.evStart ++ env.evRelease ++ env.evFiles ++
        [.fatal ("Failed to get Product Files: " ++ e ++ "\n")], .exit 1⟩) ∨
    (∃ e, ¬ env.Args.length < 2 ∧ env.Decode.2 = none ∧ env.logFile.2 = none ∧
      mustBeNonEmpty env.token "api_token" = none ∧ env.release.2 = none ∧
      env.productFiles.2.2 = none ∧ env.input.Params.Globs.length > 0 ∧
      env.globbed.2 = some e ∧ main env =
      ⟨env.evStart ++ env.evRelease ++ env.evFiles ++ env.evFilter ++
        [.fatal ("Failed to filter Product Files: " ++ e ++ "\n")], .exit 1⟩) ∨
    (¬ env.Args.length < 2 ∧ env.Decode.2 = none ∧ env.logFile.2 = none ∧
      mustBeNonEmpty env.token "api_token" = none ∧ env.release.2 = none ∧
      env.productFiles.2.2 = none ∧
      (env.input.Params.Globs.length > 0 → env.globbed.2 = none) ∧
      ((∃ e, env.downloaded = some e ∧ main env =
        ⟨env.evStart ++ env.evRelease ++ env.evFiles ++ env.evFilter ++
          [env.evDownload, .fatal ("Failed to Download Files: " ++ e ++ "\n")], .exit 1⟩) ∨
       (∃ e, env.downloaded = none ∧ env.written = some e ∧ main env =
        ⟨env.evStart ++ env.evRelease ++ env.evFiles ++ env.evFilter ++
          [env.evDownload, env.evWrite, .fatal (e ++ "\n")], .exit 1⟩) ∨
       (∃ e, env.downloaded = none ∧ env.written = none ∧ env.encoded = some e ∧ main env =
        ⟨env.evStart ++ env.evRelease ++ env.evFiles ++ env.evFilter ++
          [env.evDownload, env.evWrite, env.evEncode, .fatal (e ++ "\n")], .exit 1⟩) ∨
       (env.downloaded = none ∧ env.written = none ∧ env.encoded = none ∧ main env =
        ⟨env.evStart ++ env.evRelease ++ env.evFiles ++ env.evFilter ++
          [env.evDownload, env.evWrite, env.evEncode], .cont ()⟩))) := by
  rw [main_eq]
  unfold stages
  by_cases hargs : env.Args.length < 2
  · simp only [hargs, if_true]
    rcases hA : env.Args with _ | ⟨a, _ | ⟨b, r⟩⟩
    · simp
    · simp
    · exfalso
      simp only [hA, List.length_cons] at hargs
      omega
  have hA0 : env.Args ≠ [] := by
    intro h
    simp [h] at hargs
  have hA1 : ∀ a, env.Args ≠ [a] := by
    intro a h
    simp [h] at hargs
  simp only [hargs, if_false, not_false_eq_true, true_and, hA0, hA1, false_and, exists_false,
    false_or]
  cases h1 : env.Decode.2 with
  | some e => simp
  | none =>
  cases h2 : env.logFile.2 with
  | some e => simp
  | none =>
  cases h3 : mustBeNonEmpty env.token "api_token" with
  | some e => simp
  | none =>
  cases h4 : env.release.2 with
  | some e => simp
  | none =>
  cases h5 : env.productFiles.2.2 with
  | some e => simp
  | none =>
  by_cases hgl : env.input.Params.Globs.length > 0
  · simp only [hgl, if_true]
    cases h6 : env.globbed.2 with
    | some e => simp
    | none =>
    cases h7 : env.downloaded with
    | some e => simp
    | none =>
    cases h8 : env.written with
    | some e => simp
    | none =>
    cases h9 : env.encoded with
    | some e => simp
    | none => simp
  · simp only [hgl, if_false]
    cases h7 : env.downloaded with
    | some e => simp
    | none =>
    cases h8 : env.written with
    | some e => simp
    | none =>
    cases h9 : env.encoded with
    | some e => simp
    | none => simp

end cmd

/-! ## The claims -/


namespace cmd

/-- C1: with an empty glob list, `main` never calls
`filter.DownloadLinksByGlob`; once `GetProductFiles` has returned the product
files `pf` without error, `downloader.Download` is called with exactly
`filter.DownloadLinks(pf)`, and it is never called with any other list. -/
theorem main_empty_globs_downloads_all (env : Env) (hg : env.Decode.1.Params.Globs = []) :
    (∀ l g l' e, Event.downloadLinksByGlob l g l' e ∉ (main env).trace) ∧
    (∀ rel pf, Event.getProductFiles rel pf none ∈ (main env).trace →
      ∃ d t e, Event.download d (env.DownloadLinks pf) t e ∈ (main env).trace) ∧
    (∀ d l t e, Event.download d l t e ∈ (main env).trace →
      ∃ rel pf, Event.getProductFiles rel pf none ∈ (main env).trace ∧
        l = env.DownloadLinks pf) := by
  rw [main_eq]
  have hg' : ¬ env.input.Params.Globs.length > 0 := by simp [Env.input, hg]
  unfold stages
  simp only [hg', if_false]
  refine ⟨?_, ?_, ?_⟩
  · repeat' split
    all_goals simp [*, Env.evStart, Env.evRelease, Env.evFiles, Env.evFilter, Env.evDownload,
      Env.evWrite, Env.evEncode]
  · repeat' split
    all_goals simp [*, Env.evStart, Env.evRelease, Env.evFiles, Env.evFilter, Env.evDownload,
      Env.evWrite, Env.evEncode, Env.downloadLinks, Env.allLinks]
  · repeat' split
    all_goals simp [*, Env.evStart, Env.evRelease, Env.evFiles, Env.evFilter, Env.evDownload,
      Env.evWrite, Env.evEncode, Env.downloadLinks, Env.allLinks]
    all_goals
      intro d l t e _ hl _ _
      exact ⟨_, _, ⟨rfl, rfl⟩, hl⟩

/-- C1 at the sample environment with no globs: both files of the release are
handed to `Download`. -/
theorem main_empty_globs_downloads_all_witness :
    ∃ d t e, Event.download d
      [⟨"a.ova", "https://files/a.ova"⟩, ⟨"b.zip", "https://files/b.zip"⟩] t e ∈
        (main (sampleEnv [] "secret" none none none none)).trace :=
  (main_empty_globs_downloads_all (sampleEnv [] "secret" none none none none) rfl).2.1
    ((sampleEnv [] "secret" none none none none).GetRelease ⟨"", "", ""⟩ "" "").1
    ⟨[⟨1, "k1", "Software", "1.2.3", "m1", "a.ova"⟩, ⟨2, "k2", "Software", "1.2.3", "m2", "b.zip"⟩]⟩
    (by decide)

/-- C2: with a non-empty glob list, every call of `downloader.Download` gets
exactly the list `filter.DownloadLinksByGlob(filter.DownloadLinks(pf), globs)`
returned without error; when that filter call returns an error, neither
`Download` nor `WriteFile` is called; when it returns without error, `Download` is
called with its result. -/
theorem main_globs_downloads_filtered (env : Env) (hg : env.Decode.1.Params.Globs ≠ []) :
    (∀ d l t e, Event.download d l t e ∈ (main env).trace →
      ∃ rel pf, Event.getProductFiles rel pf none ∈ (main env).trace ∧
        Event.downloadLinksByGlob (env.DownloadLinks pf) env.Decode.1.Params.Globs l none ∈
          (main env).trace ∧
        env.DownloadLinksByGlob (env.DownloadLinks pf) env.Decode.1.Params.Globs = (l, none)) ∧
    (∀ l g l' e, Event.downloadLinksByGlob l g l' (some e) ∈ (main env).trace →
      (∀ d l t e, Event.download d l t e ∉ (main env).trace) ∧
      (∀ p d m e, Event.writeFile p d m e ∉ (main env).trace)) ∧
    (∀ l g l', Event.downloadLinksByGlob l g l' none ∈ (main env).trace →
      ∃ d t e, Event.download d l' t e ∈ (main env).trace) := by
  rw [main_eq]
  have hg' : env.input.Params.Globs.length > 0 := by
    simpa [Env.input] using List.length_pos.mpr hg
  unfold stages
  simp only [hg', if_true]
  refine ⟨?_, ?_, ?_⟩
  · repeat' split
    all_goals simp [*, Env.evStart, Env.evRelease, Env.evFiles, Env.evFilter, Env.evDownload,
      Env.evWrite, Env.evEncode, Env.downloadLinks, Env.allLinks, Env.globbed]
    all_goals
      intro d l t e _ hl _ _
      subst hl
      have hgl : (env.DownloadLinksByGlob (env.DownloadLinks env.productFiles.2.1)
          env.input.Params.Globs).2 = none := by
        simpa [Env.globbed, Env.allLinks] using ‹env.globbed.2 = none›
      exact ⟨_, _, ⟨rfl, rfl⟩, ⟨rfl, rfl, rfl, hgl.symm⟩, Prod.ext rfl hgl⟩
  · repeat' split
    all_goals simp [*, Env.evStart, Env.evRelease, Env.evFiles, Env.evFilter, Env.evDownload,
      Env.evWrite, Env.evEncode, Env.downloadLinks, Env.allLinks]
  · repeat' split
    all_goals simp [*, Env.evStart, Env.evRelease, Env.evFiles, Env.evFilter, Env.evDownload,
      Env.evWrite, Env.evEncode, Env.downloadLinks, Env.allLinks]

/-- C2 at the sample environment with glob `a.ova`: only that file's link is
handed to `Download`. -/
theorem main_globs_downloads_filtered_witness :
    ∃ d t e, Event.download d [⟨"a.ova", "https://files/a.ova"⟩] t e ∈
      (main (sampleEnv ["a.ova"] "secret" none none none none)).trace :=
  (main_globs_downloads_filtered (sampleEnv ["a.ova"] "secret" none none none none)
    (by decide)).2.2
    [⟨"a.ova", "https://files/a.ova"⟩, ⟨"b.zip", "https://files/b.zip"⟩] ["a.ova"]
    [⟨"a.ova", "https://files/a.ova"⟩] (by decide)

end cmd

namespace cmd

/-- The Boolean check `afterB` proves `After` for any predicates it
under-approximates (`p`) and over-approximates (`q`). -/
theorem afterB_sound (p q : Event → Bool) (P Q : Event → Prop)
    (hp : ∀ x, p x = true → P x) (hq : ∀ x, Q x → q x = true) :
    ∀ t, afterB p q t = true → After P Q t := by
  intro t
  induction t with
  | nil => intro _; exact after_nil P Q
  | cons a t ih =>
    intro h
    simp only [afterB, Bool.and_eq_true, Bool.not_eq_true', Bool.or_eq_true] at h
    refine after_cons P Q a t (fun hQ => ?_) ?_
    · have := hq a hQ
      rw [h.1] at this
      exact Bool.noConfusion this
    · rcases h.2 with h2 | h2
      · exact Or.inl (hp a h2)
      · exact Or.inr (ih h2)

/-- The order of the stages in a run, in Boolean form. -/
theorem main_afterB (env : Env) :
    afterB Event.okGetRelease Event.isWriteFile (main env).trace = true ∧
    afterB Event.okGetProductFiles Event.isWriteFile (main env).trace = true ∧
    (env.input.Params.Globs.length > 0 →
      afterB Event.okDownloadLinksByGlob Event.isWriteFile (main env).trace = true) ∧
    afterB Event.okDownload Event.isWriteFile (main env).trace = true ∧
    afterB Event.okWriteFile Event.isEncodeStdout (main env).trace = true := by
  by_cases hgl : env.input.Params.Globs.length > 0
  all_goals
    rcases main_cases env with ⟨h0, hm⟩ | ⟨a, h0, hm⟩ | ⟨e, h0, h1, hm⟩ | ⟨e, h0, h1, h2, hm⟩ |
      ⟨msg, h0, h1, h2, h3, hm⟩ | ⟨e, h0, h1, h2, h3, h4, hm⟩ |
      ⟨e, h0, h1, h2, h3, h4, h5, hm⟩ | ⟨e, h0, h1, h2, h3, h4, h5, _, h6, hm⟩ |
      ⟨h0, h1, h2, h3, h4, h5, h6, ⟨e, h7, hm⟩ | ⟨e, h7, h8, hm⟩ | ⟨e, h7, h8, h9, hm⟩ |
        ⟨h7, h8, h9, hm⟩⟩
  all_goals simp only [hm]
  all_goals simp only [*, Env.evStart, Env.evRelease, Env.evFiles, Env.evFilter, Env.evDownload,
    Env.evWrite, Env.evEncode, productFiles_requests, if_true, if_false, true_implies,
    false_implies, and_true, not_true_eq_false, not_false_eq_true]
  all_goals refine ⟨rfl, rfl, ?_, rfl, rfl⟩
  all_goals first
    | rfl
    | trivial

end cmd

namespace cmd

/-- C3: in the trace of `main`, the write of the version marker file comes
after a `GetRelease`, a `GetProductFiles`, (when globs are given) a
`DownloadLinksByGlob` and a `Download` that each returned without error; the
write to standard output comes after a `WriteFile` that returned without
error; a run that fails without the encoder itself having failed has written
nothing to standard output, and a run with status 0 has written its output. -/
theorem main_output_after_all_stages (env : Env) :
    After (fun x => ∃ s v rel, x = Event.getRelease s v rel none)
      (fun x => ∃ p d m e, x = Event.writeFile p d m e) (main env).trace ∧
    After (fun x => ∃ rel pf, x = Event.getProductFiles rel pf none)
      (fun x => ∃ p d m e, x = Event.writeFile p d m e) (main env).trace ∧
    (env.Decode.1.Params.Globs ≠ [] →
      After (fun x => ∃ l g l', x = Event.downloadLinksByGlob l g l' none)
        (fun x => ∃ p d m e, x = Event.writeFile p d m e) (main env).trace) ∧
    After (fun x => ∃ d l t, x = Event.download d l t none)
      (fun x => ∃ p d m e, x = Event.writeFile p d m e) (main env).trace ∧
    After (fun x => ∃ p d m, x = Event.writeFile p d m none)
      (fun x => ∃ out e, x = Event.encodeStdout out e) (main env).trace ∧
    ((main env).status ≠ 0 →
      (∀ out e, Event.encodeStdout out (some e) ∉ (main env).trace) →
      ∀ out e, Event.encodeStdout out e ∉ (main env).trace) ∧
    ((main env).status = 0 → ∃ out, Event.encodeStdout out none ∈ (main env).trace) := by
  obtain ⟨b1, b2, b3, b4, b5⟩ := main_afterB env
  have hw : ∀ x, (∃ p d m e, x = Event.writeFile p d m e) → x.isWriteFile = true := by
    rintro x ⟨p, d, m, e, rfl⟩
    rfl
  refine ⟨afterB_sound _ _ _ _ ?_ hw _ b1, afterB_sound _ _ _ _ ?_ hw _ b2,
    fun hg => afterB_sound _ _ _ _ ?_ hw _ (b3 (List.length_pos.mpr hg)),
    afterB_sound _ _ _ _ ?_ hw _ b4, afterB_sound _ _ _ _ ?_ ?_ _ b5, ?_⟩
  · intro x h
    unfold Event.okGetRelease at h
    split at h
    · exact ⟨_, _, _, rfl⟩
    · cases h
  · intro x h
    unfold Event.okGetProductFiles at h
    split at h
    · exact ⟨_, _, rfl⟩
    · cases h
  · intro x h
    unfold Event.okDownloadLinksByGlob at h
    split at h
    · exact ⟨_, _, _, rfl⟩
    · cases h
  · intro x h
    unfold Event.okDownload at h
    split at h
    · exact ⟨_, _, _, rfl⟩
    · cases h
  · intro x h
    unfold Event.okWriteFile at h
    split at h
    · exact ⟨_, _, _, rfl⟩
    · cases h
  · rintro x ⟨out, e, rfl⟩
    rfl
  · rcases main_cases env with ⟨h0, hm⟩ | ⟨a, h0, hm⟩ | ⟨e, h0, h1, hm⟩ | ⟨e, h0, h1, h2, hm⟩ |
      ⟨msg, h0, h1, h2, h3, hm⟩ | ⟨e, h0, h1, h2, h3, h4, hm⟩ |
      ⟨e, h0, h1, h2, h3, h4, h5, hm⟩ | ⟨e, h0, h1, h2, h3, h4, h5, _, h6, hm⟩ |
      ⟨h0, h1, h2, h3, h4, h5, h6, ⟨e, h7, hm⟩ | ⟨e, h7, h8, hm⟩ | ⟨e, h7, h8, h9, hm⟩ |
        ⟨h7, h8, h9, hm⟩⟩
    all_goals simp only [hm]
    all_goals simp [*, Env.evStart, Env.evRelease, Env.evFiles, Env.evFilter, Env.evDownload,
      Env.evWrite, Env.evEncode, Proc.status]

/-- C3 at the sample environment with glob `a.ova`: the twelve events before
the write of the marker file hold a `Download` that returned without error. -/
theorem main_output_after_all_stages_witness :
    ∃ x ∈ (main (sampleEnv ["a.ova"] "secret" none none none none)).trace.take 12,
      ∃ d l t, x = Event.download d l t none :=
  (main_output_after_all_stages (sampleEnv ["a.ova"] "secret" none none none none)).2.2.2.1
    ((main (sampleEnv ["a.ova"] "secret" none none none none)).trace.take 12)
    (Event.writeFile "/tmp/build/get/version" "1.2.3" ModePerm none)
    ((main (sampleEnv ["a.ova"] "secret" none none none none)).trace.drop 13)
    (by decide) ⟨_, _, _, _, rfl⟩

end cmd

namespace cmd

/-- C4: in every run with exit status 0, `GetRelease` was called with the
input's product slug and version and returned a release `rel` without error,
and the one value encoded to standard output has the input's product version
and exactly the four metadata pairs `release_type`, `release_date`,
`description`, `eula_slug`, in this order, holding `rel.ReleaseType`,
`rel.ReleaseDate`, `rel.Description` and `rel.Eula.Slug`. -/
theorem main_success_output (env : Env) (h : (main env).status = 0) :
    ∃ rel,
      Event.getRelease env.Decode.1.Source.ProductSlug env.Decode.1.Version.ProductVersion
        rel none ∈ (main env).trace ∧
      (∀ s v r e, Event.getRelease s v r e ∈ (main env).trace → r = rel) ∧
      Event.encodeStdout
        ⟨⟨env.Decode.1.Version.ProductVersion⟩,
          [⟨"release_type", rel.ReleaseType⟩, ⟨"release_date", rel.ReleaseDate⟩,
            ⟨"description", rel.Description⟩, ⟨"eula_slug", rel.Eula.Slug⟩]⟩ none ∈
        (main env).trace ∧
      (∀ out e, Event.encodeStdout out e ∈ (main env).trace →
        out = ⟨⟨env.Decode.1.Version.ProductVersion⟩,
          [⟨"release_type", rel.ReleaseType⟩, ⟨"release_date", rel.ReleaseDate⟩,
            ⟨"description", rel.Description⟩, ⟨"eula_slug", rel.Eula.Slug⟩]⟩ ∧ e = none) := by
  refine ⟨env.release.1, ?_⟩
  rcases main_cases env with ⟨h0, hm⟩ | ⟨a, h0, hm⟩ | ⟨e, h0, h1, hm⟩ | ⟨e, h0, h1, h2, hm⟩ |
    ⟨msg, h0, h1, h2, h3, hm⟩ | ⟨e, h0, h1, h2, h3, h4, hm⟩ |
    ⟨e, h0, h1, h2, h3, h4, h5, hm⟩ | ⟨e, h0, h1, h2, h3, h4, h5, _, h6, hm⟩ |
    ⟨h0, h1, h2, h3, h4, h5, h6, ⟨e, h7, hm⟩ | ⟨e, h7, h8, hm⟩ | ⟨e, h7, h8, h9, hm⟩ |
      ⟨h7, h8, h9, hm⟩⟩
  all_goals rw [hm] at h ⊢
  all_goals try (exfalso; simp [Proc.status] at h; done)
  simp [*, Env.evStart, Env.evRelease, Env.evFiles, Env.evFilter, Env.evDownload,
    Env.evWrite, Env.evEncode, Env.response, Env.productVersion, Env.input]
  intros
  assumption

/-- C4 at the sample environment: the metadata of the sample release. -/
theorem main_success_output_witness :
    ∃ rel : pivnet.Release,
      Event.encodeStdout
        ⟨⟨"1.2.3"⟩,
          [⟨"release_type", rel.ReleaseType⟩, ⟨"release_date", rel.ReleaseDate⟩,
            ⟨"description", rel.Description⟩, ⟨"eula_slug", rel.Eula.Slug⟩]⟩ none ∈
        (main (sampleEnv ["a.ova"] "secret" none none none none)).trace :=
  (main_success_output (sampleEnv ["a.ova"] "secret" none none none none) (by decide)).imp
    (fun _ hr => hr.2.2.1)

/-- C5: in every run with exit status 0 there is a destination directory
`d = os.Args[1]`, handed to `Download`, and `WriteFile` was called once, on the
path `filepath.Join(d, "version")`, with exactly the input's product version
string as contents and `os.ModePerm`, returning without error; the version
encoded to standard output is the same string. -/
theorem main_success_version_file (env : Env) (h : (main env).status = 0) :
    ∃ d, env.Args.get? 1 = some d ∧
      (∃ l t, Event.download d l t none ∈ (main env).trace) ∧
      Event.writeFile (env.Join d "version") env.Decode.1.Version.ProductVersion ModePerm none ∈
        (main env).trace ∧
      (∀ p data m e, Event.writeFile p data m e ∈ (main env).trace →
        p = env.Join d "version" ∧ data = env.Decode.1.Version.ProductVersion) ∧
      (∃ out, Event.encodeStdout out none ∈ (main env).trace) ∧
      (∀ out e, Event.encodeStdout out e ∈ (main env).trace →
        out.Version.ProductVersion = env.Decode.1.Version.ProductVersion) := by
  rcases main_cases env with ⟨h0, hm⟩ | ⟨a, h0, hm⟩ | ⟨e, h0, h1, hm⟩ | ⟨e, h0, h1, h2, hm⟩ |
    ⟨msg, h0, h1, h2, h3, hm⟩ | ⟨e, h0, h1, h2, h3, h4, hm⟩ |
    ⟨e, h0, h1, h2, h3, h4, h5, hm⟩ | ⟨e, h0, h1, h2, h3, h4, h5, _, h6, hm⟩ |
    ⟨h0, h1, h2, h3, h4, h5, h6, ⟨e, h7, hm⟩ | ⟨e, h7, h8, hm⟩ | ⟨e, h7, h8, h9, hm⟩ |
      ⟨h7, h8, h9, hm⟩⟩
  all_goals rw [hm] at h ⊢
  all_goals try (exfalso; simp [Proc.status] at h; done)
  obtain ⟨d, hd⟩ : ∃ d, env.Args.get? 1 = some d := by
    rcases hA : env.Args with _ | ⟨a, _ | ⟨b, r⟩⟩
    · simp [hA] at h0
    · simp [hA] at h0
    · exact ⟨b, rfl⟩
  have hd1 : env.Args[1]? = some d := by
    simpa using hd
  have hdir : env.downloadDir = d := by
    simp [Env.downloadDir, List.getD, hd1]
  refine ⟨d, hd, ?_⟩
  simp [*, Env.evStart, Env.evRelease, Env.evFiles, Env.evFilter, Env.evDownload,
    Env.evWrite, Env.evEncode, Env.response, Env.productVersion, Env.input, Env.versionFilepath]
  intro p data m e hp hdata _ _
  exact ⟨hp, hdata⟩

/-- C5 at the sample environment: the marker file holds `1.2.3`. -/
theorem main_success_version_file_witness :
    ∃ d, (sampleEnv [] "secret" none none none none).Args.get? 1 = some d ∧
      Event.writeFile ((sampleEnv [] "secret" none none none none).Join d "version") "1.2.3"
        ModePerm none ∈ (main (sampleEnv [] "secret" none none none none)).trace :=
  (main_success_version_file (sampleEnv [] "secret" none none none none) (by decide)).imp
    (fun _ hr => ⟨hr.1, hr.2.2.1⟩)

end cmd

namespace cmd

/-- C6: a run of `main` has exit status 0 only if `GetRelease`,
`GetProductFiles`, (when globs are given) `DownloadLinksByGlob` and
`Download` all returned without error; and when one of these four stages
returns an error `e`, the run ends with status 1, its last event is the one
fatal message of the run, made of the stage's prefix followed by `e` (and the
newline that ends the line), and no event of a later stage occurs. -/
theorem main_stage_failures (env : Env) :
    ((main env).status = 0 →
      (∃ s v rel, Event.getRelease s v rel none ∈ (main env).trace) ∧
      (∃ rel pf, Event.getProductFiles rel pf none ∈ (main env).trace) ∧
      (env.Decode.1.Params.Globs ≠ [] →
        ∃ l g l', Event.downloadLinksByGlob l g l' none ∈ (main env).trace) ∧
      (∃ d l t, Event.download d l t none ∈ (main env).trace)) ∧
    (∀ s v rel e, Event.getRelease s v rel (some e) ∈ (main env).trace →
      (main env).status = 1 ∧
      (main env).trace.getLast? = some (.fatal ("Failed to get Release: " ++ e ++ "\n")) ∧
      (main env).trace.filter Event.isFatal = [.fatal ("Failed to get Release: " ++ e ++ "\n")] ∧
      ∀ x ∈ (main env).trace, x.stage ≤ 2) ∧
    (∀ rel pf e, Event.getProductFiles rel pf (some e) ∈ (main env).trace →
      (main env).status = 1 ∧
      (main env).trace.getLast? =
        some (.fatal ("Failed to get Product Files: " ++ e ++ "\n")) ∧
      (main env).trace.filter Event.isFatal =
        [.fatal ("Failed to get Product Files: " ++ e ++ "\n")] ∧
      ∀ x ∈ (main env).trace, x.stage ≤ 3) ∧
    (∀ l g l' e, Event.downloadLinksByGlob l g l' (some e) ∈ (main env).trace →
      (main env).status = 1 ∧
      (main env).trace.getLast? =
        some (.fatal ("Failed to filter Product Files: " ++ e ++ "\n")) ∧
      (main env).trace.filter Event.isFatal =
        [.fatal ("Failed to filter Product Files: " ++ e ++ "\n")] ∧
      ∀ x ∈ (main env).trace, x.stage ≤ 4) ∧
    (∀ d l t e, Event.download d l t (some e) ∈ (main env).trace →
      (main env).status = 1 ∧
      (main env).trace.getLast? = some (.fatal ("Failed to Download Files: " ++ e ++ "\n")) ∧
      (main env).trace.filter Event.isFatal =
        [.fatal ("Failed to Download Files: " ++ e ++ "\n")] ∧
      ∀ x ∈ (main env).trace, x.stage ≤ 5) := by
  have hG : env.Decode.1.Params.Globs = env.input.Params.Globs := rfl
  refine ⟨?_, ?_, ?_, ?_, ?_⟩
  · by_cases hgl : env.input.Params.Globs.length > 0
    all_goals
      rcases main_cases env with ⟨h0, hm⟩ | ⟨a, h0, hm⟩ | ⟨e, h0, h1, hm⟩ | ⟨e, h0, h1, h2, hm⟩ |
      ⟨msg, h0, h1, h2, h3, hm⟩ | ⟨e, h0, h1, h2, h3, h4, hm⟩ |
      ⟨e, h0, h1, h2, h3, h4, h5, hm⟩ | ⟨e, h0, h1, h2, h3, h4, h5, _, h6, hm⟩ |
      ⟨h0, h1, h2, h3, h4, h5, h6, ⟨e, h7, hm⟩ | ⟨e, h7, h8, hm⟩ | ⟨e, h7, h8, h9, hm⟩ |
        ⟨h7, h8, h9, hm⟩⟩
    all_goals rw [hm]
    all_goals intro h
    all_goals try (exfalso; simp [Proc.status] at h; done)
    all_goals simp [*, Env.evStart, Env.evRelease, Env.evFiles, Env.evFilter, Env.evDownload,
      Env.evWrite, Env.evEncode]
    simpa using hgl
  · by_cases hgl : env.input.Params.Globs.length > 0
    all_goals
      rcases main_cases env with ⟨h0, hm⟩ | ⟨a, h0, hm⟩ | ⟨e, h0, h1, hm⟩ | ⟨e, h0, h1, h2, hm⟩ |
      ⟨msg, h0, h1, h2, h3, hm⟩ | ⟨e, h0, h1, h2, h3, h4, hm⟩ |
      ⟨e, h0, h1, h2, h3, h4, h5, hm⟩ | ⟨e, h0, h1, h2, h3, h4, h5, _, h6, hm⟩ |
      ⟨h0, h1, h2, h3, h4, h5, h6, ⟨e, h7, hm⟩ | ⟨e, h7, h8, hm⟩ | ⟨e, h7, h8, h9, hm⟩ |
        ⟨h7, h8, h9, hm⟩⟩
    all_goals simp only [hm]
    all_goals intro s v rel e' hmem
    all_goals simp [*, Env.evStart, Env.evRelease, Env.evFiles, Env.evFilter, Env.evDownload,
      Env.evWrite, Env.evEncode, productFiles_requests] at hmem
    all_goals obtain ⟨-, -, -, rfl⟩ := hmem
    all_goals simp only [*, Env.evStart, Env.evRelease, Env.evFiles, Env.evFilter,
      Env.evDownload, Env.evWrite, Env.evEncode, productFiles_requests, if_true, if_false]
    all_goals refine ⟨rfl, rfl, rfl, ?_⟩
    all_goals simp [Event.stage]
  · by_cases hgl : env.input.Params.Globs.length > 0
    all_goals
      rcases main_cases env with ⟨h0, hm⟩ | ⟨a, h0, hm⟩ | ⟨e, h0, h1, hm⟩ | ⟨e, h0, h1, h2, hm⟩ |
      ⟨msg, h0, h1, h2, h3, hm⟩ | ⟨e, h0, h1, h2, h3, h4, hm⟩ |
      ⟨e, h0, h1, h2, h3, h4, h5, hm⟩ | ⟨e, h0, h1, h2, h3, h4, h5, _, h6, hm⟩ |
      ⟨h0, h1, h2, h3, h4, h5, h6, ⟨e, h7, hm⟩ | ⟨e, h7, h8, hm⟩ | ⟨e, h7, h8, h9, hm⟩ |
        ⟨h7, h8, h9, hm⟩⟩
    all_goals simp only [hm]
    all_goals intro rel pf e' hmem
    all_goals simp [*, Env.evStart, Env.evRelease, Env.evFiles, Env.evFilter, Env.evDownload,
      Env.evWrite, Env.evEncode, productFiles_requests] at hmem
    all_goals obtain ⟨-, -, rfl⟩ := hmem
    all_goals simp only [*, Env.evStart, Env.evRelease, Env.evFiles, Env.evFilter,
      Env.evDownload, Env.evWrite, Env.evEncode, productFiles_requests, if_true, if_false]
    all_goals refine ⟨rfl, rfl, rfl, ?_⟩
    all_goals simp [Event.stage]
  · by_cases hgl : env.input.Params.Globs.length > 0
    all_goals
      rcases main_cases env with ⟨h0, hm⟩ | ⟨a, h0, hm⟩ | ⟨e, h0, h1, hm⟩ | ⟨e, h0, h1, h2, hm⟩ |
      ⟨msg, h0, h1, h2, h3, hm⟩ | ⟨e, h0, h1, h2, h3, h4, hm⟩ |
      ⟨e, h0, h1, h2, h3, h4, h5, hm⟩ | ⟨e, h0, h1, h2, h3, h4, h5, _, h6, hm⟩ |
      ⟨h0, h1, h2, h3, h4, h5, h6, ⟨e, h7, hm⟩ | ⟨e, h7, h8, hm⟩ | ⟨e, h7, h8, h9, hm⟩ |
        ⟨h7, h8, h9, hm⟩⟩
    all_goals simp only [hm]
    all_goals intro l g l' e' hmem
    all_goals simp [*, Env.evStart, Env.evRelease, Env.evFiles, Env.evFilter, Env.evDownload,
      Env.evWrite, Env.evEncode, productFiles_requests] at hmem
    all_goals obtain ⟨-, -, -, rfl⟩ := hmem
    all_goals simp only [*, Env.evStart, Env.evRelease, Env.evFiles, Env.evFilter,
      Env.evDownload, Env.evWrite, Env.evEncode, productFiles_requests, if_true, if_false]
    all_goals refine ⟨rfl, rfl, rfl, ?_⟩
    all_goals simp [Event.stage]
  · by_cases hgl : env.input.Params.Globs.length > 0
    all_goals
      rcases main_cases env with ⟨h0, hm⟩ | ⟨a, h0, hm⟩ | ⟨e, h0, h1, hm⟩ | ⟨e, h0, h1, h2, hm⟩ |
      ⟨msg, h0, h1, h2, h3, hm⟩ | ⟨e, h0, h1, h2, h3, h4, hm⟩ |
      ⟨e, h0, h1, h2, h3, h4, h5, hm⟩ | ⟨e, h0, h1, h2, h3, h4, h5, _, h6, hm⟩ |
      ⟨h0, h1, h2, h3, h4, h5, h6, ⟨e, h7, hm⟩ | ⟨e, h7, h8, hm⟩ | ⟨e, h7, h8, h9, hm⟩ |
        ⟨h7, h8, h9, hm⟩⟩
    all_goals simp only [hm]
    all_goals intro d l t e' hmem
    all_goals simp [*, Env.evStart, Env.evRelease, Env.evFiles, Env.evFilter, Env.evDownload,
      Env.evWrite, Env.evEncode, productFiles_requests] at hmem
    all_goals obtain ⟨-, -, -, rfl⟩ := hmem
    all_goals simp only [*, Env.evStart, Env.evRelease, Env.evFiles, Env.evFilter,
      Env.evDownload, Env.evWrite, Env.evEncode, productFiles_requests, if_true, if_false]
    all_goals refine ⟨rfl, rfl, rfl, ?_⟩
    all_goals simp [Event.stage]

/-- C6 at the sample environment with `GetRelease` failing with `404`: the
last event of the run is the message of that stage. -/
theorem main_stage_failures_witness :
    (main (sampleEnv [] "secret" none (some "404") none none)).status = 1 ∧
    (main (sampleEnv [] "secret" none (some "404") none none)).trace.getLast? =
      some (.fatal ("Failed to get Release: " ++ "404" ++ "\n")) :=
  have h := (main_stage_failures (sampleEnv [] "secret" none (some "404") none none)).2.1
    "my-product" "1.2.3"
    ((sampleEnv [] "secret" none (some "404") none none).GetRelease ⟨"", "", ""⟩ "" "").1
    "404" (by decide)
  ⟨h.1, h.2.1⟩

end cmd

namespace cmd

/-- With a non-empty `api_token`, a run that gets as far as the credential
check (arguments given, input decoded, log file created) builds a client. -/
theorem main_builds_client (env : Env) (ht : env.Decode.1.Source.APIToken ≠ "")
    (a0 : ¬ env.Args.length < 2) (a1 : env.Decode.2 = none)
    (a2 : (env.TempFile "" "pivnet-resource-in.log").2 = none) :
    ∃ cfg c, Event.newClient cfg c ∈ (main env).trace := by
  have a2' : env.logFile.2 = none := a2
  have hmust : mustBeNonEmpty env.token "api_token" = none := by
    show mustBeNonEmpty env.Decode.1.Source.APIToken "api_token" = _
    simp [mustBeNonEmpty, ht]
  rcases main_cases env with ⟨h0, hm⟩ | ⟨a, h0, hm⟩ | ⟨e, h0, h1, hm⟩ | ⟨e, h0, h1, h2, hm⟩ |
    ⟨msg, h0, h1, h2, h3, hm⟩ | ⟨e, h0, h1, h2, h3, h4, hm⟩ |
    ⟨e, h0, h1, h2, h3, h4, h5, hm⟩ | ⟨e, h0, h1, h2, h3, h4, h5, _, h6, hm⟩ |
    ⟨h0, h1, h2, h3, h4, h5, h6, ⟨e, h7, hm⟩ | ⟨e, h7, h8, hm⟩ | ⟨e, h7, h8, h9, hm⟩ |
      ⟨h7, h8, h9, hm⟩⟩
  all_goals simp only [hm]
  all_goals first
    | (exfalso; simp [h0] at a0; done)
    | (exfalso; rw [h1] at a1; cases a1; done)
    | (exfalso; rw [h2] at a2'; cases a2'; done)
    | (exfalso; rw [hmust] at h3; cases h3; done)
    | exact ⟨env.clientConfig, env.client, by simp [Env.evRelease]⟩

/-- C7: when the input's `api_token` is empty, every run of `main` ends with a
non-zero status and contains no event of any pipeline stage (no client
creation, catalog request, filtering or download); when the run reaches the
credential check (arguments given, input decoded, log file created) it ends
with status 1 and the single fatal message `api_token must be provided`
(with the newline that ends the line).
Function `mustBeNonEmpty` returns for every non-empty input, and with a
non-empty token a run that reaches the check goes on to create the client. -/
theorem main_requires_api_token (env : Env) :
    (env.Decode.1.Source.APIToken = "" →
      (main env).status ≠ 0 ∧
      (∀ x ∈ (main env).trace, x.stage = 0) ∧
      (¬ env.Args.length < 2 → env.Decode.2 = none →
        (env.TempFile "" "pivnet-resource-in.log").2 = none →
        (main env).status = 1 ∧
        (main env).trace.getLast? = some (.fatal "api_token must be provided\n") ∧
        (main env).trace.filter Event.isFatal = [.fatal "api_token must be provided\n"])) ∧
    mustBeNonEmpty "" "api_token" = some "api_token must be provided\n" ∧
    (∀ input key, input ≠ "" → mustBeNonEmpty input key = none) ∧
    (env.Decode.1.Source.APIToken ≠ "" →
      ¬ env.Args.length < 2 → env.Decode.2 = none →
      (env.TempFile "" "pivnet-resource-in.log").2 = none →
      ∃ cfg c, Event.newClient cfg c ∈ (main env).trace) := by
  refine ⟨fun ht => ?_, rfl, fun input key hne => by simp [mustBeNonEmpty, hne], ?_⟩
  · have hmust : mustBeNonEmpty env.token "api_token" = some "api_token must be provided\n" := by
      show mustBeNonEmpty env.Decode.1.Source.APIToken "api_token" = _
      rw [ht]
      rfl
    rcases main_cases env with ⟨h0, hm⟩ | ⟨a, h0, hm⟩ | ⟨e, h0, h1, hm⟩ | ⟨e, h0, h1, h2, hm⟩ |
      ⟨msg, h0, h1, h2, h3, hm⟩ | ⟨e, h0, h1, h2, h3, h4, hm⟩ |
      ⟨e, h0, h1, h2, h3, h4, h5, hm⟩ | ⟨e, h0, h1, h2, h3, h4, h5, _, h6, hm⟩ |
      ⟨h0, h1, h2, h3, h4, h5, h6, ⟨e, h7, hm⟩ | ⟨e, h7, h8, hm⟩ | ⟨e, h7, h8, h9, hm⟩ |
        ⟨h7, h8, h9, hm⟩⟩
    all_goals try (exfalso; rw [hmust] at h3; cases h3; done)
    all_goals simp only [hm]
    all_goals refine ⟨by simp [Proc.status], by simp [Env.evStart, Event.stage],
      fun a0 a1 a2 => ?_⟩
    all_goals have a2' : env.logFile.2 = none := a2
    all_goals first
      | (exfalso; simp [h0] at a0; done)
      | (exfalso; rw [h1] at a1; cases a1; done)
      | (exfalso; rw [h2] at a2'; cases a2'; done)
      | (rw [hmust] at h3; cases h3; simp only [Env.evStart]; exact ⟨rfl, rfl, rfl⟩)
  · exact main_builds_client env

/-- C7 at the sample environment with an empty `api_token`: the run stops at
the credential check. -/
theorem main_requires_api_token_witness :
    (main (sampleEnv ["a.ova"] "" none none none none)).status = 1 ∧
    (main (sampleEnv ["a.ova"] "" none none none none)).trace.getLast? =
      some (.fatal "api_token must be provided\n") :=
  have h := ((main_requires_api_token (sampleEnv ["a.ova"] "" none none none none)).1 rfl).2.2
    (by decide) rfl rfl
  ⟨h.1, h.2.1⟩

end cmd

namespace pivnet

/-- Map indexing returns the value stored under a key of a map (an
association list whose keys are distinct). -/
theorem mapIndex_of_mem (m : List (String × String)) (k v : String)
    (hk : (m.map Prod.fst).Nodup) (hv : (k, v) ∈ m) : mapIndex m k = v := by
  induction m with
  | nil => simp at hv
  | cons p m ih =>
    obtain ⟨pk, pv⟩ := p
    simp only [List.map_cons, List.nodup_cons, List.mem_map, Prod.exists, exists_and_right,
      exists_eq_right, not_exists] at hk
    by_cases hpk : pk = k
    · subst hpk
      rcases List.mem_cons.mp hv with h | h
      · cases h
        simp [mapIndex]
      · exact absurd h (hk.1 v)
    · rcases List.mem_cons.mp hv with h | h
      · cases h
        exact absurd rfl hpk
      · have := ih hk.2 h
        simpa [mapIndex, List.find?_cons, hpk] using this

/-- Map indexing returns `""` for a key the map does not hold. -/
theorem mapIndex_of_not_mem (m : List (String × String)) (k : String)
    (hk : ∀ v, (k, v) ∉ m) : mapIndex m k = "" := by
  induction m with
  | nil => rfl
  | cons p m ih =>
    obtain ⟨pk, pv⟩ := p
    have hpk : pk ≠ k := by
      intro h
      exact hk pv (by simp [h])
    have := ih (fun v hv => hk v (List.mem_cons_of_mem _ hv))
    simpa [mapIndex, List.find?_cons, hpk] using this

/-- C8: for every release, `GetProductFiles` issues exactly one request, a
`GET` with no body expecting status 200, to the URL stored under `href` of the
release's product-files link (`""` when there is no such entry); when the
request returns without error the result is the decoded collection, whole,
with a nil error; when it returns an error the result is the empty
`ProductFiles{}` with that same error. -/
theorem GetProductFiles_spec
    (makeRequest : Request → ProductFiles → ProductFiles × Option String)
    (release : Release) :
    (GetProductFiles makeRequest release).1 =
      [⟨"GET", mapIndex release.Links.ProductFiles "href", 200, none⟩] ∧
    (∀ v, (release.Links.ProductFiles.map Prod.fst).Nodup →
      ("href", v) ∈ release.Links.ProductFiles →
      mapIndex release.Links.ProductFiles "href" = v) ∧
    ((∀ v, ("href", v) ∉ release.Links.ProductFiles) →
      mapIndex release.Links.ProductFiles "href" = "") ∧
    (∀ pf, makeRequest ⟨"GET", mapIndex release.Links.ProductFiles "href", 200, none⟩
        ProductFiles.zero = (pf, none) →
      (GetProductFiles makeRequest release).2 = (pf, none)) ∧
    (∀ pf e, makeRequest ⟨"GET", mapIndex release.Links.ProductFiles "href", 200, none⟩
        ProductFiles.zero = (pf, some e) →
      (GetProductFiles makeRequest release).2 = (ProductFiles.zero, some e)) := by
  refine ⟨cmd.GetProductFiles_requests _ _, fun v hk hv => mapIndex_of_mem _ _ _ hk hv,
    mapIndex_of_not_mem _ _, ?_, ?_⟩
  · intro pf h
    simp [GetProductFiles, StatusOK, h]
  · intro pf e h
    simp [GetProductFiles, StatusOK, h]

/-- C8 on a sample release whose link is `/files`: one `GET` to `/files`; a
failed request gives `ProductFiles{}` and the error. -/
theorem GetProductFiles_spec_witness :
    (GetProductFiles (fun _ _ => (⟨[⟨1, "k", "Software", "1", "m", "a.ova"⟩]⟩, some "boom"))
      ⟨"", "", "", ⟨""⟩, ⟨[("href", "/files")]⟩⟩) =
      ([⟨"GET", "/files", 200, none⟩], (ProductFiles.zero, some "boom")) :=
  have h := GetProductFiles_spec
    (fun _ _ => (⟨[⟨1, "k", "Software", "1", "m", "a.ova"⟩]⟩, some "boom"))
    ⟨"", "", "", ⟨""⟩, ⟨[("href", "/files")]⟩⟩
  Prod.ext h.1 (h.2.2.2.2 _ "boom" rfl)

end pivnet

namespace cmd

/-- C9, as stated, fails: the sample input supplies the base URL
`https://pivnet.example.com/api/v2` in `source`, and the client is built with
`pivnet.URL` all the same. -/
theorem main_source_url_not_used :
    (sampleEnv [] "secret" (some "https://pivnet.example.com/api/v2") none none none).Decode.1.Source.URL
      = some "https://pivnet.example.com/api/v2" ∧
    Event.newClient
      ⟨"https://network.pivotal.io/api/v2", "secret", "pivnet-resource/dev"⟩
      ⟨"https://network.pivotal.io/api/v2", "secret", "pivnet-resource/dev"⟩ ∈
      (main (sampleEnv [] "secret" (some "https://pivnet.example.com/api/v2")
        none none none)).trace ∧
    ¬ (∀ cfg c, Event.newClient cfg c ∈
        (main (sampleEnv [] "secret" (some "https://pivnet.example.com/api/v2")
          none none none)).trace →
      cfg.URL = "https://pivnet.example.com/api/v2") := by
  refine ⟨rfl, by decide, fun h => ?_⟩
  have := h ⟨"https://network.pivotal.io/api/v2", "secret", "pivnet-resource/dev"⟩
    ⟨"https://network.pivotal.io/api/v2", "secret", "pivnet-resource/dev"⟩ (by decide)
  revert this
  decide

/-- C9, amended: whatever the input's `source` holds, every client `main`
builds is configured with the fixed catalog URL `pivnet.URL`; a run with exit
status 0 has built one. -/
theorem main_client_url_fixed (env : Env) :
    (∀ cfg c, Event.newClient cfg c ∈ (main env).trace → cfg.URL = env.pivnetURL) ∧
    ((main env).status = 0 → ∃ cfg c, Event.newClient cfg c ∈ (main env).trace) := by
  rcases main_cases env with ⟨h0, hm⟩ | ⟨a, h0, hm⟩ | ⟨e, h0, h1, hm⟩ | ⟨e, h0, h1, h2, hm⟩ |
    ⟨msg, h0, h1, h2, h3, hm⟩ | ⟨e, h0, h1, h2, h3, h4, hm⟩ |
    ⟨e, h0, h1, h2, h3, h4, h5, hm⟩ | ⟨e, h0, h1, h2, h3, h4, h5, _, h6, hm⟩ |
    ⟨h0, h1, h2, h3, h4, h5, h6, ⟨e, h7, hm⟩ | ⟨e, h7, h8, hm⟩ | ⟨e, h7, h8, h9, hm⟩ |
      ⟨h7, h8, h9, hm⟩⟩
  all_goals simp only [hm]
  all_goals simp [Env.evStart, Env.evRelease, Env.evFiles, Env.evFilter, Env.evDownload,
    Env.evWrite, Env.evEncode, Proc.status]
  all_goals try rfl

/-- C9 amended, at the sample input that supplies another base URL: the
client's URL is `pivnet.URL`. -/
theorem main_client_url_fixed_witness :
    (⟨"https://network.pivotal.io/api/v2", "secret", "pivnet-resource/dev"⟩ :
      pivnet.NewClientConfig).URL =
      (sampleEnv [] "secret" (some "https://pivnet.example.com/api/v2")
        none none none).pivnetURL :=
  (main_client_url_fixed
    (sampleEnv [] "secret" (some "https://pivnet.example.com/api/v2") none none none)).1
    ⟨"https://network.pivotal.io/api/v2", "secret", "pivnet-resource/dev"⟩
    ⟨"https://network.pivotal.io/api/v2", "secret", "pivnet-resource/dev"⟩ (by decide)

/-- C10: with a non-empty `api_token` `t`, every client `main` builds has
`Token = t` and the user agent `pivnet-resource/` followed by the build
version (`dev` when `version` was left empty), and every call of
`downloader.Download` gets `t` as its credential.  A run that reaches the
credential check (arguments given, input decoded, log file created) builds
the client from the configuration holding `t` and calls `GetRelease` and
`GetProductFiles` on that client; when moreover `GetRelease`,
`GetProductFiles` and (globs given) `DownloadLinksByGlob` return without
error, `downloader.Download` is called with the destination directory, the
download links and the credential `t`.  A run with exit status 0 has called
`Download` with `t`. -/
theorem main_forwards_token (env : Env) (t : String)
    (ht : env.Decode.1.Source.APIToken = t) (hne : t ≠ "") :
    (∀ cfg c, Event.newClient cfg c ∈ (main env).trace →
      cfg.Token = t ∧
      cfg.UserAgent = "pivnet-resource/" ++ (if env.version = "" then "dev" else env.version)) ∧
    (env.version = "" → ∀ cfg c, Event.newClient cfg c ∈ (main env).trace →
      cfg.UserAgent = "pivnet-resource/dev") ∧
    (∀ d l c e, Event.download d l c e ∈ (main env).trace → c = t) ∧
    (¬ env.Args.length < 2 → env.Decode.2 = none →
      (env.TempFile "" "pivnet-resource-in.log").2 = none →
      ∃ cfg c, Event.newClient cfg c ∈ (main env).trace) ∧
    ((main env).status = 0 → ∃ d l, Event.download d l t none ∈ (main env).trace) ∧
    (¬ env.Args.length < 2 → env.Decode.2 = none →
      (env.TempFile "" "pivnet-resource-in.log").2 = none →
      env.client = env.NewClient
        ⟨env.pivnetURL, t,
          "pivnet-resource/" ++ (if env.version = "" then "dev" else env.version)⟩ ∧
      Event.newClient
        ⟨env.pivnetURL, t,
          "pivnet-resource/" ++ (if env.version = "" then "dev" else env.version)⟩
        env.client ∈ (main env).trace ∧
      Event.getRelease env.Decode.1.Source.ProductSlug env.Decode.1.Version.ProductVersion
        (env.GetRelease env.client env.Decode.1.Source.ProductSlug
          env.Decode.1.Version.ProductVersion).1
        (env.GetRelease env.client env.Decode.1.Source.ProductSlug
          env.Decode.1.Version.ProductVersion).2 ∈ (main env).trace ∧
      (env.release.2 = none →
        Event.getProductFiles env.release.1
          (pivnet.GetProductFiles (env.makeRequest env.client) env.release.1).2.1
          (pivnet.GetProductFiles (env.makeRequest env.client) env.release.1).2.2 ∈
          (main env).trace)) ∧
    (¬ env.Args.length < 2 → env.Decode.2 = none →
      (env.TempFile "" "pivnet-resource-in.log").2 = none →
      env.release.2 = none → env.productFiles.2.2 = none →
      (env.Decode.1.Params.Globs ≠ [] → env.globbed.2 = none) →
      Event.download env.downloadDir env.downloadLinks t env.downloaded ∈ (main env).trace) := by
  have hcfg : env.clientConfig.Token = t := ht
  have hua : env.clientConfig.UserAgent =
      "pivnet-resource/" ++ (if env.version = "" then "dev" else env.version) := rfl
  have htok : env.token = t := ht
  have hmust : mustBeNonEmpty env.token "api_token" = none := by
    show mustBeNonEmpty env.Decode.1.Source.APIToken "api_token" = _
    simp [mustBeNonEmpty, ht, hne]
  have hcc : env.clientConfig =
      ⟨env.pivnetURL, t,
        "pivnet-resource/" ++ (if env.version = "" then "dev" else env.version)⟩ := by
    subst ht
    rfl
  refine ⟨?_, ?_, ?_, main_builds_client env (ht ▸ hne), ?_, ?_, ?_⟩
  · rcases main_cases env with ⟨h0, hm⟩ | ⟨a, h0, hm⟩ | ⟨e, h0, h1, hm⟩ | ⟨e, h0, h1, h2, hm⟩ |
      ⟨msg, h0, h1, h2, h3, hm⟩ | ⟨e, h0, h1, h2, h3, h4, hm⟩ |
      ⟨e, h0, h1, h2, h3, h4, h5, hm⟩ | ⟨e, h0, h1, h2, h3, h4, h5, hgl, h6, hm⟩ |
      ⟨h0, h1, h2, h3, h4, h5, h6, ⟨e, h7, hm⟩ | ⟨e, h7, h8, hm⟩ | ⟨e, h7, h8, h9, hm⟩ |
        ⟨h7, h8, h9, hm⟩⟩
    all_goals simp only [hm]
    all_goals simp [Env.evStart, Env.evRelease, Env.evFiles, Env.evFilter, Env.evDownload,
      Env.evWrite, Env.evEncode, Proc.status]
    all_goals exact ⟨hcfg, hua⟩
  · intro hv
    have hua' : env.clientConfig.UserAgent = "pivnet-resource/dev" := by
      rw [hua, if_pos hv]
      rfl
    rcases main_cases env with ⟨h0, hm⟩ | ⟨a, h0, hm⟩ | ⟨e, h0, h1, hm⟩ | ⟨e, h0, h1, h2, hm⟩ |
      ⟨msg, h0, h1, h2, h3, hm⟩ | ⟨e, h0, h1, h2, h3, h4, hm⟩ |
      ⟨e, h0, h1, h2, h3, h4, h5, hm⟩ | ⟨e, h0, h1, h2, h3, h4, h5, hgl, h6, hm⟩ |
      ⟨h0, h1, h2, h3, h4, h5, h6, ⟨e, h7, hm⟩ | ⟨e, h7, h8, hm⟩ | ⟨e, h7, h8, h9, hm⟩ |
        ⟨h7, h8, h9, hm⟩⟩
    all_goals simp only [hm]
    all_goals simp [Env.evStart, Env.evRelease, Env.evFiles, Env.evFilter, Env.evDownload,
      Env.evWrite, Env.evEncode, Proc.status]
    all_goals exact hua'
  · rcases main_cases env with ⟨h0, hm⟩ | ⟨a, h0, hm⟩ | ⟨e, h0, h1, hm⟩ | ⟨e, h0, h1, h2, hm⟩ |
      ⟨msg, h0, h1, h2, h3, hm⟩ | ⟨e, h0, h1, h2, h3, h4, hm⟩ |
      ⟨e, h0, h1, h2, h3, h4, h5, hm⟩ | ⟨e, h0, h1, h2, h3, h4, h5, hgl, h6, hm⟩ |
      ⟨h0, h1, h2, h3, h4, h5, h6, ⟨e, h7, hm⟩ | ⟨e, h7, h8, hm⟩ | ⟨e, h7, h8, h9, hm⟩ |
        ⟨h7, h8, h9, hm⟩⟩
    all_goals simp only [hm]
    all_goals simp [Env.evStart, Env.evRelease, Env.evFiles, Env.evFilter, Env.evDownload,
      Env.evWrite, Env.evEncode, Proc.status]
    all_goals
      intro d l c e _ _ hc _
      rw [hc]
      exact htok
  · rcases main_cases env with ⟨h0, hm⟩ | ⟨a, h0, hm⟩ | ⟨e, h0, h1, hm⟩ | ⟨e, h0, h1, h2, hm⟩ |
      ⟨msg, h0, h1, h2, h3, hm⟩ | ⟨e, h0, h1, h2, h3, h4, hm⟩ |
      ⟨e, h0, h1, h2, h3, h4, h5, hm⟩ | ⟨e, h0, h1, h2, h3, h4, h5, hgl, h6, hm⟩ |
      ⟨h0, h1, h2, h3, h4, h5, h6, ⟨e, h7, hm⟩ | ⟨e, h7, h8, hm⟩ | ⟨e, h7, h8, h9, hm⟩ |
        ⟨h7, h8, h9, hm⟩⟩
    all_goals simp only [hm]
    all_goals simp [Env.evStart, Env.evRelease, Env.evFiles, Env.evFilter, Env.evDownload,
      Env.evWrite, Env.evEncode, Proc.status]
    exact ⟨htok.symm, h7.symm⟩
  · intro a0 a1 a2
    have a2' : env.logFile.2 = none := a2
    refine ⟨by rw [← hcc]; rfl, ?_⟩
    rw [← hcc]
    rcases main_cases env with ⟨h0, hm⟩ | ⟨a, h0, hm⟩ | ⟨e, h0, h1, hm⟩ | ⟨e, h0, h1, h2, hm⟩ |
      ⟨msg, h0, h1, h2, h3, hm⟩ | ⟨e, h0, h1, h2, h3, h4, hm⟩ |
      ⟨e, h0, h1, h2, h3, h4, h5, hm⟩ | ⟨e, h0, h1, h2, h3, h4, h5, hgl, h6, hm⟩ |
      ⟨h0, h1, h2, h3, h4, h5, h6, ⟨e, h7, hm⟩ | ⟨e, h7, h8, hm⟩ | ⟨e, h7, h8, h9, hm⟩ |
        ⟨h7, h8, h9, hm⟩⟩
    all_goals simp only [hm]
    all_goals first
      | (exfalso; simp [h0] at a0; done)
      | (exfalso; rw [h1] at a1; cases a1; done)
      | (exfalso; rw [h2] at a2'; cases a2'; done)
      | (exfalso; rw [hmust] at h3; cases h3; done)
      | (refine ⟨by simp [Env.evRelease], by simp [Env.evRelease, Env.release,
          Env.productVersion, Env.input], fun a4 => ?_⟩
         first
          | (exfalso; rw [h4] at a4; cases a4; done)
          | simp [Env.evFiles, Env.productFiles])
  · intro a0 a1 a2 a4 a5 a6
    have a2' : env.logFile.2 = none := a2
    rcases main_cases env with ⟨h0, hm⟩ | ⟨a, h0, hm⟩ | ⟨e, h0, h1, hm⟩ | ⟨e, h0, h1, h2, hm⟩ |
      ⟨msg, h0, h1, h2, h3, hm⟩ | ⟨e, h0, h1, h2, h3, h4, hm⟩ |
      ⟨e, h0, h1, h2, h3, h4, h5, hm⟩ | ⟨e, h0, h1, h2, h3, h4, h5, hgl, h6, hm⟩ |
      ⟨h0, h1, h2, h3, h4, h5, h6, ⟨e, h7, hm⟩ | ⟨e, h7, h8, hm⟩ | ⟨e, h7, h8, h9, hm⟩ |
        ⟨h7, h8, h9, hm⟩⟩
    all_goals simp only [hm]
    all_goals first
      | (exfalso; simp [h0] at a0; done)
      | (exfalso; rw [h1] at a1; cases a1; done)
      | (exfalso; rw [h2] at a2'; cases a2'; done)
      | (exfalso; rw [hmust] at h3; cases h3; done)
      | (exfalso; rw [h4] at a4; cases a4; done)
      | (exfalso; rw [h5] at a5; cases a5; done)
      | (exfalso; have hgn := a6 (List.length_pos.mp hgl); rw [h6] at hgn; cases hgn)
      | simp [Env.evDownload, htok]

/-- C10 at the sample environment, built with no version set: the client is
configured with the token and `Download` is called with the same token. -/
theorem main_forwards_token_witness :
    Event.newClient
      ⟨"https://network.pivotal.io/api/v2", "secret", "pivnet-resource/dev"⟩
      ⟨"https://network.pivotal.io/api/v2", "secret", "pivnet-resource/dev"⟩ ∈
      (main (sampleEnv ["a.ova"] "secret" none none none none)).trace ∧
    Event.download "/tmp/build/get" [⟨"a.ova", "https://files/a.ova"⟩] "secret" none ∈
      (main (sampleEnv ["a.ova"] "secret" none none none none)).trace :=
  have h := main_forwards_token (sampleEnv ["a.ova"] "secret" none none none none) "secret" rfl
    (by decide)
  ⟨(h.2.2.2.2.2.1 (by decide) rfl rfl).2.1,
    h.2.2.2.2.2.2 (by decide) rfl rfl rfl rfl (fun _ => rfl)⟩

end cmd
